import Mathlib

/-!
Shallow embedding of the clifun input-resolution engine (src/clifun.py).

Python values are modelled by the inductive `Value`; Python dictionaries
(which preserve insertion order) are modelled by association lists; the
process environment `os.environ` and the file system (config-file name to
parsed JSON object) are passed explicitly.  Machine-level details that the
claims do not touch are restricted: the interpreter registry is modelled
with the `int`, `str` and `bool` converters of `default_string_interpreters`
(the `float`, `date` and `datetime` converters delegate to external parsing
primitives and are not modelled), and Python's `int(...)` string parsing is
modelled on sign-plus-decimal-digits literals.
-/

namespace Clifun

/-- Tags for the scalar types whose converters are modelled from
`default_string_interpreters` in src/clifun.py. -/
inductive ScalarTy where
  | int
  | str
  | bool
deriving DecidableEq

/-- Python runtime values: scalars, `None`, the `inspect._empty` /
`NOT_SPECIFIED` sentinel, and constructed record objects (constructor name
plus ordered keyword fields, as produced by `self.callable(**collected)`). -/
inductive Value where
  | int (n : Int)
  | str (s : String)
  | bool (b : Bool)
  | none
  | notSpecified
  | obj (ctor : String) (fields : List (String × Value))

/-- Python `is None` test (src/clifun.py checks `s is None`). -/
def Value.isNone : Value → Bool
  | .none => true
  | _ => false

/-- Python `== NOT_SPECIFIED` test against the `inspect._empty` sentinel. -/
def Value.isNotSpecified : Value → Bool
  | .notSpecified => true
  | _ => false

mutual
/-- A Python type annotation as clifun sees it: a registered scalar type, an
`Optional[...]` wrapped scalar, or a composite record type (a class whose
`inspect.signature` yields an ordered field list). -/
inductive PyTy where
  | scalar (s : ScalarTy)
  | opt (s : ScalarTy)
  | record (ctor : String) (fields : Fields)

/-- The ordered parameter list of a composite: each field carries its name,
its declared type and its default (`Value.notSpecified` when absent). -/
inductive Fields where
  | nil
  | cons (name : String) (ty : PyTy) (dflt : Value) (rest : Fields)
end

/-- Python exceptions that the modelled code can raise. -/
inductive PyErr where
  | interp (s : String) (t : PyTy)
  | valueError (msg : String)
  | typeError (msg : String)
  | attributeError (msg : String)
  | keyError (key : String)

/-- Association-list lookup, modelling Python `dict` lookup by key. -/
def lookupStr {α : Type} : List (String × α) → String → Option α
  | [], _ => Option.none
  | (k, v) :: rest, key => if k = key then some v else lookupStr rest key

/-- Python dict assignment `d[k] = v`: overwrite in place, else append. -/
def kwInsert : List (String × String) → String → String → List (String × String)
  | [], k, v => [(k, v)]
  | (k0, v0) :: rest, k, v =>
      if k0 = k then (k0, v) :: rest else (k0, v0) :: kwInsert rest k v

/-- Python `s.lower()`, modelled character-wise (ASCII). -/
def pyLower (s : String) : String := ⟨s.data.map Char.toLower⟩

/-- Python `s.upper()`, modelled character-wise (ASCII); dots and other
non-letters are preserved, so `f.a` becomes `F.A`. -/
def pyUpper (s : String) : String := ⟨s.data.map Char.toUpper⟩

/-- Decimal digits to a natural number. -/
def digitsToNat (l : List Char) : Nat :=
  l.foldl (fun acc c => acc * 10 + (c.toNat - 48)) 0

/-- Nonempty all-digit character list to a natural number. -/
def digitsCore (l : List Char) : Option Nat :=
  if l ≠ [] ∧ l.all (fun c => c.isDigit) then some (digitsToNat l) else Option.none

/-- Python `int(s)` on strings, modelled for optional-sign decimal literals
(whitespace, underscores and non-ASCII digits are outside the model). -/
def pyIntOfString (s : String) : Option Int :=
  match s.data with
  | '+' :: rest => (digitsCore rest).map (fun n => (n : Int))
  | '-' :: rest => (digitsCore rest).map (fun n => -(n : Int))
  | l => (digitsCore l).map (fun n => (n : Int))

/-- Python `str(v)` rendering of the modelled values (total). -/
def pyStrOfValue : Value → String
  | .str s => s
  | .int n => toString n
  | .bool b => if b then "True" else "False"
  | .none => "None"
  | .notSpecified => "<empty>"
  | .obj ctor _ => ctor

/-- The registered `int` converter: Python's builtin `int` applied to
whatever value reaches it (a sourced string or a raw default). -/
def conv_int : Value → Except PyErr Value
  | .str s =>
      match pyIntOfString s with
      | some n => .ok (.int n)
      | Option.none =>
          .error (.valueError ("invalid literal for int() with base 10: " ++ s))
  | .int n => .ok (.int n)
  | .bool b => .ok (.int (if b then 1 else 0))
  | _ => .error (.typeError ("int() argument must be a string or a number"))

/-- The registered `str` converter: Python's builtin `str` (never fails). -/
def conv_str (v : Value) : Except PyErr Value :=
  .ok (.str (pyStrOfValue v))

/-- The registered `bool` converter `interpret_bool` from src/clifun.py:
case-insensitive truthy/falsy token sets, `InterpretationError` otherwise;
a non-string argument has no `.lower()` and raises `AttributeError`. -/
def interpret_bool : Value → Except PyErr Value
  | .str s =>
      if pyLower s ∈ ["t", "true", "yes", "y"] then .ok (.bool true)
      else if pyLower s ∈ ["f", "false", "no", "n"] then .ok (.bool false)
      else .error (.interp s (.scalar .bool))
  | _ => .error (.attributeError ("lower"))

/-- The converter registered for a scalar tag in
`default_string_interpreters`. -/
def applyDefaultConv : ScalarTy → Value → Except PyErr Value
  | .int => conv_int
  | .str => conv_str
  | .bool => interpret_bool

/-- The modelled `default_string_interpreters` registry: type tag to
converter, as a lookup table. -/
def default_string_interpreters : List (ScalarTy × (Value → Except PyErr Value)) :=
  [(.int, conv_int), (.str, conv_str), (.bool, interpret_bool)]

/-- Registry lookup keyed by a type, modelling `type_converters[t]`: only
scalar type identities are dictionary keys, so a record type misses. -/
def lookupConv (tc : List (ScalarTy × (Value → Except PyErr Value))) : PyTy →
    Option (Value → Except PyErr Value)
  | .scalar s => go tc s
  | _ => Option.none
where
  go : List (ScalarTy × (Value → Except PyErr Value)) → ScalarTy →
      Option (Value → Except PyErr Value)
    | [], _ => Option.none
    | (k, f) :: rest, s => if k = s then some f else go rest s

/-- `is_optional` from src/clifun.py: `Union[t, None] == t`. -/
def is_optional : PyTy → Bool
  | .opt _ => true
  | _ => false

/-- `unwrap_optional` from src/clifun.py: strip one `Optional` wrapper. -/
def unwrap_optional : PyTy → PyTy
  | .opt s => .scalar s
  | t => t

/-- `interpret_string_as_type` from src/clifun.py: look the (unwrapped, when
optional) type up in the converter table and apply it; a `KeyError` from the
lookup becomes `InterpretationError(s, t)`; any error the converter itself
raises propagates unchanged. -/
def interpret_string_as_type (s : String) (t : PyTy)
    (type_converters : List (ScalarTy × (Value → Except PyErr Value))) :
    Except PyErr Value :=
  let key := if is_optional t then unwrap_optional t else t
  match lookupConv type_converters key with
  | Option.none => .error (.interp s t)
  | some f => f (.str s)

/-- The `Arguments` data class from src/clifun.py: positional config-file
paths, keyword flag values, and the help flag. -/
structure Arguments where
  positional : List String
  keyword : List (String × String)
  help : Bool

/-- The `ConfigFiles` data class: the list of parsed JSON objects, already
ordered so that earlier entries take precedence. -/
structure ConfigFiles where
  configs : List (List (String × String))

/-- `ConfigFiles.get`: the first config containing the key wins, else the
default (which may be the non-string environment/default fallback). -/
def configGet : List (List (String × String)) → String → Value → Value
  | [], _, dflt => dflt
  | c :: rest, key, dflt =>
      match lookupStr c key with
      | some v => .str v
      | Option.none => configGet rest key dflt

/-- `InputSources` from src/clifun.py; `env` models `os.environ`. -/
structure InputSources where
  args : Arguments
  config_files : ConfigFiles
  env : List (String × String)

/-- `InputSources.get`: environment fallback is computed from the
upper-cased key, then keyword flags are consulted, then config files, the
environment value (or the caller default) last. -/
def InputSources.get (src : InputSources) (key : String) (dflt : Value) : Value :=
  let env_value : Value :=
    match lookupStr src.env (pyUpper key) with
    | some v => .str v
    | Option.none => dflt
  match lookupStr src.args.keyword key with
  | some v => .str v
  | Option.none => configGet src.config_files.configs key env_value

/-- The loop of `interpret_arguments`: scan tokens left to right starting
after the program name; `-h`/`--help` short-circuits with a bare help
request; a `--name` token consumes the next token as its value (an error
when it is the last token); any other token is a positional argument; at
the end help is set iff nothing at all was collected. -/
def scanArgs : List String → List String → List (String × String) →
    Except PyErr Arguments
  | [], pos, kw => .ok ⟨pos, kw, pos.isEmpty && kw.isEmpty⟩
  | arg :: rest, pos, kw =>
      if arg = "-h" ∨ arg = "--help" then .ok ⟨[], [], true⟩
      else if arg.take 2 = "--" then
        match rest with
        | [] => .error (.valueError ("Missing value for argument: " ++ arg.drop 2))
        | v :: rest2 => scanArgs rest2 pos (kwInsert kw (arg.drop 2) v)
      else scanArgs rest (pos ++ [arg]) kw

/-- `interpret_arguments` from src/clifun.py: index `i` starts at 1, so the
first element (the program name) is skipped. -/
def interpret_arguments (args : List String) : Except PyErr Arguments :=
  scanArgs (args.drop 1) [] []

/-- The list comprehension of `load_config_files`, run over the reversed
file-name list: load each file from the modelled file system, failing on
the first name with no file. -/
def loadConfigsRev (fsys : List (String × List (String × String))) :
    List String → Except PyErr (List (List (String × String)))
  | [] => .ok []
  | n :: rest => do
      let c ←
        match lookupStr fsys n with
        | some c => Except.ok c
        | Option.none => Except.error (.valueError ("Could not find config file " ++ n))
      let cs ← loadConfigsRev fsys rest
      .ok (c :: cs)

/-- `load_config_files` from src/clifun.py: the file list is reversed so
that later config files override earlier ones. -/
def load_config_files (fsys : List (String × List (String × String)))
    (filenames : List String) : Except PyErr ConfigFiles := do
  let configs ← loadConfigsRev fsys filenames.reverse
  .ok ⟨configs⟩

/-- `assemble_input_sources` from src/clifun.py, with the modelled
environment and file system passed explicitly. -/
def assemble_input_sources (args : List String) (env : List (String × String))
    (fsys : List (String × List (String × String))) : Except PyErr InputSources := do
  let args_object ← interpret_arguments args
  let cfgs ← load_config_files fsys args_object.positional
  .ok ⟨args_object, cfgs, env⟩

/-- The `AnnotatedParameter` data of src/clifun.py: the parameter name,
its declared annotation, its default, the converter tag drawn from the
registry for the unwrapped type, and the dotted-path prefix. -/
structure AnnotatedParameter where
  name : String
  ty : PyTy
  dflt : Value
  conv : ScalarTy
  pfx : List String

/-- `AnnotatedParameter.prefixed_name`: dot-join of prefix plus name. -/
def AnnotatedParameter.prefixed_name (p : AnnotatedParameter) : String :=
  String.intercalate "." (p.pfx ++ [p.name])

/-- `InputSources.get_value`: look the parameter's dotted name up with its
declared default as the final fallback. -/
def InputSources.get_value (src : InputSources) (v : AnnotatedParameter) : Value :=
  src.get v.prefixed_name v.dflt

mutual
/-- The discovery result of src/clifun.py: either an `AnnotatedParameter`
leaf or an `AnnotatedCallable` (its record constructor, the name it is
passed to its parent under, and its annotated children in order). -/
inductive Annotated where
  | param (p : AnnotatedParameter)
  | callable (ctor : String) (name : String) (needed : AnnList)

/-- Ordered list of annotated inputs of one callable. -/
inductive AnnList where
  | nil
  | cons (a : Annotated) (rest : AnnList)
end

/-- The dictionary key `needed.name` used by `AnnotatedCallable.__call__`. -/
def annName : Annotated → String
  | .param p => p.name
  | .callable _ nm _ => nm

mutual
/-- `annotate_parameter` from src/clifun.py, specialised to the default
registry (every modelled scalar type is registered, so the `t in
interpreter` test succeeds exactly on scalars): a scalar (after unwrapping
`Optional`) becomes a leaf carrying `interpreter[t]`; a record type is a
composite, annotated under the extended prefix and its own name. -/
def annotate_parameter (name : String) (ty : PyTy) (dflt : Value)
    (pfx : List String) : Annotated :=
  match ty with
  | .scalar s => .param ⟨name, ty, dflt, s, pfx⟩
  | .opt s => .param ⟨name, ty, dflt, s, pfx⟩
  | .record ctor fields =>
      .callable ctor name (annotate_fields fields (pfx ++ [name]))

/-- Annotate each field of a record in declaration order. -/
def annotate_fields : Fields → List String → AnnList
  | .nil, _ => .nil
  | .cons n t d rest, pfx =>
      .cons (annotate_parameter n t d pfx) (annotate_fields rest pfx)
end

/-- `annotate_callable` from src/clifun.py on a record type: the name
defaults to the class name when none is passed down. -/
def annotate_callable (ctor : String) (fields : Fields) (pfx : List String)
    (nm : Option String) : Annotated :=
  .callable ctor (nm.getD ctor) (annotate_fields fields pfx)

mutual
/-- `all_needed_inputs` from src/clifun.py: depth-first flattening of the
annotated tree into its parameter leaves, in declaration order. -/
def all_needed_inputs : Annotated → List AnnotatedParameter
  | .param p => [p]
  | .callable _ _ needed => allNeededList needed

/-- Flatten an annotated-input list. -/
def allNeededList : AnnList → List AnnotatedParameter
  | .nil => []
  | .cons a rest => all_needed_inputs a ++ allNeededList rest
end

/-- The per-leaf body of `resolve_inputs.resolve`: fetch the value; a
`None` resolves to `None` (flagged missing unless the type is optional); the
`NOT_SPECIFIED` sentinel is flagged missing; anything else passes through. -/
def resolveOne (src : InputSources) (v : AnnotatedParameter) : Value × Bool :=
  let s := src.get_value v
  if s.isNone then
    if is_optional v.ty then (s, false) else (s, true)
  else if s.isNotSpecified then (s, true)
  else (s, false)

/-- `resolve_inputs` from src/clifun.py: the collected dotted-name-to-value
map in order, together with the set of missing dotted names. -/
def resolve_inputs : List AnnotatedParameter → InputSources →
    List (String × Value) × List String
  | [], _ => ([], [])
  | v :: rest, src =>
      let r := resolveOne src v
      let tail := resolve_inputs rest src
      ((v.prefixed_name, r.1) :: tail.1,
        (if r.2 then [v.prefixed_name] else []) ++ tail.2)

/-- `valid_args` from src/clifun.py: the prefixed names of the needed
parameters. -/
def valid_args (values : List AnnotatedParameter) : List String :=
  values.map (fun v => v.prefixed_name)

/-- `invalid_args` from src/clifun.py: the supplied names minus the valid
ones (set difference, modelled as a filter over the supplied keys). -/
def invalid_args (args : List String) (allowed : List AnnotatedParameter) :
    List String :=
  args.filter (fun a => !((valid_args allowed).contains a))

mutual
/-- The `collect` closure of `AnnotatedCallable.__call__`: a parameter leaf
looks its prefixed name up in the resolved inputs (a genuinely absent key is
a `KeyError`); a `None` is returned as-is for an optional type and raises a
`ValueError` otherwise; any other value goes through the leaf's converter.
A nested callable is collected recursively and constructed. -/
def collect (inputs : List (String × Value)) : Annotated → Except PyErr Value
  | .param p =>
      match lookupStr inputs p.prefixed_name with
      | Option.none => .error (.keyError p.prefixed_name)
      | some value =>
          if value.isNone then
            if is_optional p.ty then .ok Value.none
            else .error (.valueError
              ("Somehow got None for non optional parameter " ++ p.name))
          else applyDefaultConv p.conv value
  | .callable ctor _ needed => do
      let fs ← collectList inputs needed
      .ok (.obj ctor fs)

/-- Collect the keyword dictionary `{needed.name: collect(needed)}` in
order, propagating the first raised exception. -/
def collectList (inputs : List (String × Value)) : AnnList →
    Except PyErr (List (String × Value))
  | .nil => .ok []
  | .cons a rest => do
      let v ← collect inputs a
      let fs ← collectList inputs rest
      .ok ((annName a, v) :: fs)
end

/-- The observable outcome of `call` from src/clifun.py: a returned value,
a `sys.exit` (help with code 0, unknown or missing arguments with code 1,
each carrying what the report names), or a propagated exception. -/
inductive CallResult where
  | ret (v : Value)
  | exitHelp
  | exitUnknown (unknown : List String)
  | exitMissing (missing : List String)
  | raised (e : PyErr)

/-- The process exit code of an outcome, when it exits. -/
def CallResult.exitCode : CallResult → Option Nat
  | .ret _ => Option.none
  | .exitHelp => some 0
  | .exitUnknown _ => some 1
  | .exitMissing _ => some 1
  | .raised _ => Option.none

/-- `call` from src/clifun.py on a record type `ctor`/`fields`, with the
default interpreters: annotate, assemble the input sources, honour help,
reject unknown flags, reject missing inputs, otherwise invoke. -/
def callFull (ctor : String) (fields : Fields) (argv : List String)
    (env : List (String × String))
    (fsys : List (String × List (String × String))) : CallResult :=
  let annotated := annotate_callable ctor fields [] Option.none
  match interpret_arguments argv with
  | .error e => .raised e
  | .ok args =>
    match load_config_files fsys args.positional with
    | .error e => .raised e
    | .ok cfgs =>
      let provided : InputSources := ⟨args, cfgs, env⟩
      if args.help then .exitHelp
      else
        let needed := all_needed_inputs annotated
        let unknown := invalid_args (args.keyword.map (fun kv => kv.1)) needed
        if !unknown.isEmpty then .exitUnknown unknown
        else
          let resolved := resolve_inputs needed provided
          if !resolved.2.isEmpty then .exitMissing resolved.2
          else
            match collect resolved.1 annotated with
            | .ok v => .ret v
            | .error e => .raised e

/-! ### Helper lemmas -/

theorem isNone_false_of_ne {v : Value} (h : v ≠ Value.none) : v.isNone = false := by
  cases v <;> simp [Value.isNone] at h ⊢

theorem isNotSpecified_false_of_ne {v : Value} (h : v ≠ Value.notSpecified) :
    v.isNotSpecified = false := by
  cases v <;> simp [Value.isNotSpecified] at h ⊢

/-- Absence of a key from every layer of an `InputSources`: no keyword flag,
no config file, no environment variable (under the upper-cased key). -/
def layersMiss (src : InputSources) (key : String) : Prop :=
  lookupStr src.args.keyword key = Option.none ∧
  (∀ c ∈ src.config_files.configs, lookupStr c key = Option.none) ∧
  lookupStr src.env (pyUpper key) = Option.none

theorem configGet_of_none {cs : List (List (String × String))} {key : String}
    (h : ∀ c ∈ cs, lookupStr c key = Option.none) (d : Value) :
    configGet cs key d = d := by
  induction cs with
  | nil => rfl
  | cons c rest ih =>
      have hc : lookupStr c key = Option.none := h c (by simp)
      have hr : ∀ c2 ∈ rest, lookupStr c2 key = Option.none := by
        intro c2 hc2
        exact h c2 (by simp [hc2])
      simp [configGet, hc, ih hr]

theorem get_of_layersMiss {src : InputSources} {key : String}
    (h : layersMiss src key) (d : Value) : src.get key d = d := by
  obtain ⟨hk, hc, he⟩ := h
  simp [InputSources.get, hk, he, configGet_of_none hc]

/-- Sources with no flags, no config files and an empty environment. -/
def emptySources : InputSources := ⟨⟨[], [], false⟩, ⟨[]⟩, []⟩

/-- The `Basic` record of examples/basic.py: `a : int` (no default) and
`b : str = "not provided"`. -/
def basicFields : Fields :=
  .cons "a" (.scalar .int) Value.notSpecified
    (.cons "b" (.scalar .str) (Value.str "not provided") .nil)

/-! ### Claims -/

/-- C3: running `call` on `Basic{a: int, b: str = "not provided"}` with the
argument vector `["--a", "1"]` (after the program name) returns
`Basic(a=1, b="not provided")`: the supplied flag is interpreted as an int
and the omitted field takes its declared default. -/
theorem basic_flag_and_default_call :
    callFull "Basic" basicFields ["prog", "--a", "1"] [] [] =
      .ret (.obj "Basic" [("a", .int 1), ("b", .str "not provided")]) := rfl

/-- C7: the boolean interpreter maps, case-insensitively, each of `t`,
`true`, `yes`, `y` to `True` and each of `f`, `false`, `no`, `n` to
`False`, and raises `InterpretationError` on every other string. -/
theorem interpret_bool_tokens (s : String) :
    (interpret_bool (.str s) = .ok (.bool true) ↔
      pyLower s ∈ ["t", "true", "yes", "y"]) ∧
    (interpret_bool (.str s) = .ok (.bool false) ↔
      pyLower s ∈ ["f", "false", "no", "n"]) ∧
    (pyLower s ∉ (["t", "true", "yes", "y"] : List String) →
      pyLower s ∉ (["f", "false", "no", "n"] : List String) →
      interpret_bool (.str s) = .error (.interp s (.scalar .bool))) := by
  have disj : pyLower s ∈ (["t", "true", "yes", "y"] : List String) →
      pyLower s ∉ (["f", "false", "no", "n"] : List String) := by
    intro h
    simp only [List.mem_cons, List.not_mem_nil, or_false] at h
    rcases h with h | h | h | h <;> rw [h] <;> decide
  by_cases h1 : pyLower s ∈ (["t", "true", "yes", "y"] : List String)
  · have h2 := disj h1
    refine ⟨?_, ?_, ?_⟩
    · simp [interpret_bool, h1]
    · simp [interpret_bool, h1, h2]
    · intro hc
      exact absurd h1 hc
  · by_cases h2 : pyLower s ∈ (["f", "false", "no", "n"] : List String)
    · refine ⟨?_, ?_, ?_⟩
      · simp [interpret_bool, h1, h2]
      · simp [interpret_bool, h1, h2]
      · intro _ hc
        exact absurd h2 hc
    · refine ⟨?_, ?_, ?_⟩
      · simp [interpret_bool, h1, h2]
      · simp [interpret_bool, h1, h2]
      · intro _ _
        simp [interpret_bool, h1, h2]

/-- Witness for C7 at concrete inputs. -/
theorem interpret_bool_tokens_witness :
    interpret_bool (.str "maybe") = .error (.interp "maybe" (.scalar .bool)) ∧
    interpret_bool (.str "Y") = .ok (.bool true) ∧
    interpret_bool (.str "f") = .ok (.bool false) :=
  ⟨(interpret_bool_tokens "maybe").2.2 (by decide) (by decide),
   (interpret_bool_tokens "Y").1.mpr (by decide),
   (interpret_bool_tokens "f").2.1.mpr (by decide)⟩

/-- C9: when the argument vector holds nothing after the program name, the
parsed `Arguments` have `help = true`, and `call` prints usage and exits
with code 0 without invoking the callable. -/
theorem empty_args_help_exit (ctor : String) (fields : Fields)
    (argv : List String) (env : List (String × String))
    (fsys : List (String × List (String × String)))
    (h : argv.length ≤ 1) :
    interpret_arguments argv = .ok ⟨[], [], true⟩ ∧
    callFull ctor fields argv env fsys = .exitHelp ∧
    CallResult.exitHelp.exitCode = some 0 := by
  have hdrop : argv.drop 1 = [] := List.drop_eq_nil_of_le h
  have hparse : interpret_arguments argv = .ok ⟨[], [], true⟩ := by
    simp [interpret_arguments, hdrop, scanArgs]
  have hload : load_config_files fsys ([] : List String) = .ok ⟨[]⟩ := rfl
  refine ⟨hparse, ?_, rfl⟩
  simp [callFull, hparse, hload]

/-- Witness for C9 at a concrete argument vector. -/
theorem empty_args_help_exit_witness :
    interpret_arguments ["prog"] = .ok ⟨[], [], true⟩ ∧
    callFull "Basic" basicFields ["prog"] [] [] = .exitHelp ∧
    CallResult.exitHelp.exitCode = some 0 :=
  empty_args_help_exit "Basic" basicFields ["prog"] [] [] (by decide)

/-- A required (non-optional) int parameter whose declared default is
Python `None` (as in `a: int = None`), at the root prefix. -/
def noneDefaultParam : AnnotatedParameter := ⟨"a", .scalar .int, Value.none, .int, []⟩

/-- C6 counterexample: with a required leaf whose source lookup yields
`None`, `resolve_inputs` adds the dotted name to the `missing` set rather
than raising — refuting the claim that a required `None` is never merged
into `missing`. -/
theorem none_required_merged_into_missing :
    emptySources.get_value noneDefaultParam = Value.none ∧
    is_optional noneDefaultParam.ty = false ∧
    (resolve_inputs [noneDefaultParam] emptySources).2 = ["a"] ∧
    noneDefaultParam.prefixed_name ∈ (resolve_inputs [noneDefaultParam] emptySources).2 := by
  refine ⟨rfl, rfl, rfl, ?_⟩
  show "a" ∈ ["a"]
  simp

/-- C6 amended: when the source yields `None` during resolution, an
optional leaf resolves to `None` and is not missing; a required leaf is
added to the `missing` set (it is not raised there); the `ValueError` for a
required `None` is raised only later, in `AnnotatedCallable.__call__`, if
such a value reaches assembly. -/
theorem none_resolution_policy (p : AnnotatedParameter) (src : InputSources)
    (h : src.get_value p = Value.none) :
    (is_optional p.ty = true → resolveOne src p = (Value.none, false)) ∧
    (is_optional p.ty = false → resolveOne src p = (Value.none, true)) ∧
    (∀ inputs : List (String × Value),
      lookupStr inputs p.prefixed_name = some Value.none →
      is_optional p.ty = false →
      collect inputs (.param p) = .error (.valueError
        ("Somehow got None for non optional parameter " ++ p.name))) ∧
    (∀ inputs : List (String × Value),
      lookupStr inputs p.prefixed_name = some Value.none →
      is_optional p.ty = true →
      collect inputs (.param p) = .ok Value.none) := by
  refine ⟨?_, ?_, ?_, ?_⟩
  · intro hopt
    simp [resolveOne, h, Value.isNone, hopt]
  · intro hopt
    simp [resolveOne, h, Value.isNone, hopt]
  · intro inputs hin hopt
    simp [collect, hin, Value.isNone, hopt]
  · intro inputs hin hopt
    simp [collect, hin, Value.isNone, hopt]

/-- Witness for the amended C6 at concrete inputs. -/
theorem none_resolution_policy_witness :
    resolveOne emptySources noneDefaultParam = (Value.none, true) ∧
    collect [("a", Value.none)] (.param noneDefaultParam) =
      .error (.valueError ("Somehow got None for non optional parameter a")) :=
  ⟨(none_resolution_policy noneDefaultParam emptySources rfl).2.1 rfl,
   (none_resolution_policy noneDefaultParam emptySources rfl).2.2.1
     [("a", Value.none)] rfl rfl⟩

/-- C8 counterexample: the registered `int` converter rejects `"abc"` with
a plain `ValueError`, not an `InterpretationError` — `interpret_string_as_type`
only converts the registry `KeyError` into `InterpretationError`, so a
converter's own rejection is not wrapped. -/
theorem int_rejection_not_interp_error :
    interpret_string_as_type "abc" (.scalar .int) default_string_interpreters =
      .error (.valueError "invalid literal for int() with base 10: abc") ∧
    ∀ (s0 : String) (t0 : PyTy),
      interpret_string_as_type "abc" (.scalar .int) default_string_interpreters ≠
        .error (.interp s0 t0) := by
  refine ⟨rfl, ?_⟩
  intro s0 t0 hc
  rw [show interpret_string_as_type "abc" (.scalar .int) default_string_interpreters =
      .error (.valueError "invalid literal for int() with base 10: abc") from rfl] at hc
  exact absurd (Except.error.inj hc) (by simp)

/-- C8 amended: `interpret_string_as_type` fails with an
`InterpretationError` carrying the original string and the requested type
exactly when no converter is registered for the (unwrapped, when optional)
type; when a converter is registered, its own outcome — including its own
exception, such as the `bool` converter's `InterpretationError` or the
`int` converter's plain `ValueError` — propagates unchanged. -/
theorem interpret_string_error_policy (s : String) (t : PyTy)
    (tc : List (ScalarTy × (Value → Except PyErr Value))) :
    (lookupConv tc (if is_optional t then unwrap_optional t else t) = Option.none →
      interpret_string_as_type s t tc = .error (.interp s t)) ∧
    (∀ f, lookupConv tc (if is_optional t then unwrap_optional t else t) = some f →
      interpret_string_as_type s t tc = f (.str s)) := by
  constructor
  · intro h
    simp [interpret_string_as_type, h]
  · intro f h
    simp [interpret_string_as_type, h]

/-- Witness for the amended C8 at concrete inputs: an unregistered record
type gives `InterpretationError`; the registered bool converter's outcome
propagates as-is. -/
theorem interpret_string_error_policy_witness :
    interpret_string_as_type "x" (.record "R" .nil) default_string_interpreters =
      .error (.interp "x" (.record "R" .nil)) ∧
    interpret_string_as_type "maybe" (.scalar .bool) default_string_interpreters =
      interpret_bool (.str "maybe") :=
  ⟨(interpret_string_error_policy "x" (.record "R" .nil)
      default_string_interpreters).1 rfl,
   (interpret_string_error_policy "maybe" (.scalar .bool)
      default_string_interpreters).2 interpret_bool rfl⟩

/-- C10: a leaf absent from every source layer whose default is neither the
no-default sentinel nor `None` resolves to the raw default, is not missing,
and the value handed to the callable is the leaf's registered converter
applied to that default — not the default unchanged. -/
theorem default_through_converter (p : AnnotatedParameter) (src : InputSources)
    (habs : layersMiss src p.prefixed_name)
    (hn : p.dflt ≠ Value.none) (hns : p.dflt ≠ Value.notSpecified) :
    src.get_value p = p.dflt ∧
    resolve_inputs [p] src = ([(p.prefixed_name, p.dflt)], []) ∧
    (∀ inputs : List (String × Value),
      lookupStr inputs p.prefixed_name = some p.dflt →
      collect inputs (.param p) = applyDefaultConv p.conv p.dflt) := by
  have hget : src.get_value p = p.dflt := get_of_layersMiss habs p.dflt
  refine ⟨hget, ?_, ?_⟩
  · simp [resolve_inputs, resolveOne, hget, isNone_false_of_ne hn,
      isNotSpecified_false_of_ne hns]
  · intro inputs hin
    simp [collect, hin, isNone_false_of_ne hn]

/-- A required int parameter with the raw int default `5`. -/
def intDefaultParam : AnnotatedParameter := ⟨"a", .scalar .int, .int 5, .int, []⟩

/-- Witness for C10 at concrete inputs: the int default `5` passes through
`int(...)` and arrives as `5`. -/
theorem default_through_converter_witness :
    resolve_inputs [intDefaultParam] emptySources = ([("a", .int 5)], []) ∧
    collect [("a", Value.int 5)] (.param intDefaultParam) =
      applyDefaultConv .int (.int 5) ∧
    applyDefaultConv ScalarTy.int (.int 5) = .ok (.int 5) :=
  ⟨(default_through_converter intDefaultParam emptySources
      ⟨rfl, by intro c hc; simp [emptySources] at hc, rfl⟩ (by intro h; cases h) (by intro h; cases h)).2.1,
   (default_through_converter intDefaultParam emptySources
      ⟨rfl, by intro c hc; simp [emptySources] at hc, rfl⟩ (by intro h; cases h) (by intro h; cases h)).2.2
      [("a", Value.int 5)] rfl,
   rfl⟩

theorem mem_invalid_args {args : List String} {allowed : List AnnotatedParameter}
    {k : String} :
    k ∈ invalid_args args allowed ↔ (k ∈ args ∧ k ∉ valid_args allowed) := by
  simp [invalid_args, List.mem_filter]

theorem resolveOne_missing_of_notSpecified {src : InputSources}
    {v : AnnotatedParameter} (h : src.get_value v = Value.notSpecified) :
    (resolveOne src v).2 = true := by
  simp [resolveOne, h, Value.isNone, Value.isNotSpecified]

theorem mem_missing_of_resolveOne {needed : List AnnotatedParameter}
    {src : InputSources} {v : AnnotatedParameter} (hv : v ∈ needed)
    (hm : (resolveOne src v).2 = true) :
    v.prefixed_name ∈ (resolve_inputs needed src).2 := by
  induction needed with
  | nil => cases hv
  | cons w rest ih =>
      cases List.mem_cons.mp hv with
      | inl h =>
          subst h
          simp [resolve_inputs, hm]
      | inr h =>
          simp only [resolve_inputs]
          exact List.mem_append_right _ (ih h)

/-- C5: any supplied flag name matching no discovered leaf's dotted name
makes `call` exit with code 1, reporting exactly the unmatched flags,
without invoking the callable. -/
theorem unknown_arguments_exit (ctor : String) (fields : Fields)
    (argv : List String) (env : List (String × String))
    (fsys : List (String × List (String × String)))
    (a : Arguments) (cfgs : ConfigFiles)
    (hparse : interpret_arguments argv = .ok a)
    (hhelp : a.help = false)
    (hload : load_config_files fsys a.positional = .ok cfgs)
    (hex : ∃ k ∈ a.keyword.map (fun kv => kv.1),
      k ∉ valid_args (all_needed_inputs (annotate_callable ctor fields [] Option.none))) :
    ∃ U, callFull ctor fields argv env fsys = .exitUnknown U ∧ U ≠ [] ∧
      (∀ k, k ∈ U ↔ (k ∈ a.keyword.map (fun kv => kv.1) ∧
        k ∉ valid_args (all_needed_inputs (annotate_callable ctor fields [] Option.none)))) ∧
      (CallResult.exitUnknown U).exitCode = some 1 ∧
      (∀ w, callFull ctor fields argv env fsys ≠ .ret w) := by
  obtain ⟨k, hk1, hk2⟩ := hex
  refine ⟨invalid_args (a.keyword.map (fun kv => kv.1))
    (all_needed_inputs (annotate_callable ctor fields [] Option.none)), ?_, ?_, ?_, rfl, ?_⟩
  · have hkU : k ∈ invalid_args (a.keyword.map (fun kv => kv.1))
        (all_needed_inputs (annotate_callable ctor fields [] Option.none)) :=
      mem_invalid_args.mpr ⟨hk1, hk2⟩
    have hne := List.ne_nil_of_mem hkU
    have hemp : (invalid_args (a.keyword.map (fun kv => kv.1))
        (all_needed_inputs (annotate_callable ctor fields [] Option.none))).isEmpty = false := by
      simpa [List.isEmpty_iff] using hne
    simp [callFull, hparse, hload, hhelp, hemp]
  · exact List.ne_nil_of_mem (mem_invalid_args.mpr ⟨hk1, hk2⟩)
  · intro k2
    exact mem_invalid_args
  · intro w hc
    have hkU : k ∈ invalid_args (a.keyword.map (fun kv => kv.1))
        (all_needed_inputs (annotate_callable ctor fields [] Option.none)) :=
      mem_invalid_args.mpr ⟨hk1, hk2⟩
    have hemp : (invalid_args (a.keyword.map (fun kv => kv.1))
        (all_needed_inputs (annotate_callable ctor fields [] Option.none))).isEmpty = false := by
      simpa [List.isEmpty_iff] using List.ne_nil_of_mem hkU
    rw [show callFull ctor fields argv env fsys = .exitUnknown
      (invalid_args (a.keyword.map (fun kv => kv.1))
        (all_needed_inputs (annotate_callable ctor fields [] Option.none))) from by
      simp [callFull, hparse, hload, hhelp, hemp]] at hc
    cases hc

/-- Witness for C5 at concrete inputs: `--a 1 --c 2` on `Basic` exits with
the unknown flag `c` reported. -/
theorem unknown_arguments_exit_witness :
    callFull "Basic" basicFields ["prog", "--a", "1", "--c", "2"] [] [] =
      .exitUnknown ["c"] := by
  obtain ⟨U, hU, hne, hmem, hcode, hnr⟩ := unknown_arguments_exit "Basic" basicFields
    ["prog", "--a", "1", "--c", "2"] [] [] ⟨[], [("a", "1"), ("c", "2")], false⟩ ⟨[]⟩
    rfl rfl rfl ⟨"c", by decide, by decide⟩
  have hc : callFull "Basic" basicFields ["prog", "--a", "1", "--c", "2"] [] [] =
      .exitUnknown ["c"] := rfl
  exact hc

/-- C4: once past the help and unknown-flag gates, if at least one
required leaf (no default) is absent from every source layer, `call` exits
with code 1 reporting a missing-arguments set that contains every such
dotted name (not only the first), and the callable is not invoked. -/
theorem missing_arguments_exit (ctor : String) (fields : Fields)
    (argv : List String) (env : List (String × String))
    (fsys : List (String × List (String × String)))
    (a : Arguments) (cfgs : ConfigFiles)
    (hparse : interpret_arguments argv = .ok a)
    (hhelp : a.help = false)
    (hload : load_config_files fsys a.positional = .ok cfgs)
    (hunk : invalid_args (a.keyword.map (fun kv => kv.1))
      (all_needed_inputs (annotate_callable ctor fields [] Option.none)) = [])
    (hex : ∃ v ∈ all_needed_inputs (annotate_callable ctor fields [] Option.none),
      v.dflt = Value.notSpecified ∧ layersMiss ⟨a, cfgs, env⟩ v.prefixed_name) :
    ∃ M, callFull ctor fields argv env fsys = .exitMissing M ∧ M ≠ [] ∧
      (∀ v ∈ all_needed_inputs (annotate_callable ctor fields [] Option.none),
        v.dflt = Value.notSpecified → layersMiss ⟨a, cfgs, env⟩ v.prefixed_name →
        v.prefixed_name ∈ M) ∧
      (CallResult.exitMissing M).exitCode = some 1 ∧
      (∀ w, callFull ctor fields argv env fsys ≠ .ret w) := by
  have hmiss : ∀ v ∈ all_needed_inputs (annotate_callable ctor fields [] Option.none),
      v.dflt = Value.notSpecified → layersMiss ⟨a, cfgs, env⟩ v.prefixed_name →
      v.prefixed_name ∈ (resolve_inputs
        (all_needed_inputs (annotate_callable ctor fields [] Option.none))
        ⟨a, cfgs, env⟩).2 := by
    intro v hv hd hl
    have hget : InputSources.get_value ⟨a, cfgs, env⟩ v = Value.notSpecified := by
      rw [InputSources.get_value, get_of_layersMiss hl, hd]
    exact mem_missing_of_resolveOne hv (resolveOne_missing_of_notSpecified hget)
  obtain ⟨v, hv, hd, hl⟩ := hex
  have hvM := hmiss v hv hd hl
  have hne := List.ne_nil_of_mem hvM
  have hemp : (resolve_inputs
      (all_needed_inputs (annotate_callable ctor fields [] Option.none))
      ⟨a, cfgs, env⟩).2.isEmpty = false := by
    simpa [List.isEmpty_iff] using hne
  have hunke : (invalid_args (a.keyword.map (fun kv => kv.1))
      (all_needed_inputs (annotate_callable ctor fields [] Option.none))).isEmpty = true := by
    simp [List.isEmpty_iff, hunk]
  have hcall : callFull ctor fields argv env fsys = .exitMissing (resolve_inputs
      (all_needed_inputs (annotate_callable ctor fields [] Option.none))
      ⟨a, cfgs, env⟩).2 := by
    simp [callFull, hparse, hload, hhelp, hunke, hemp]
  refine ⟨_, hcall, hne, hmiss, rfl, ?_⟩
  intro w hc
  rw [hcall] at hc
  cases hc

/-- Witness for C4 at concrete inputs: omitting `--a` on `Basic` exits
with `a` reported missing. -/
theorem missing_arguments_exit_witness :
    callFull "Basic" basicFields ["prog", "--b", "test"] [] [] =
      .exitMissing ["a"] := by
  obtain ⟨M, hM, hne, hmem, hcode, hnr⟩ := missing_arguments_exit "Basic" basicFields
    ["prog", "--b", "test"] [] [] ⟨[], [("b", "test")], false⟩ ⟨[]⟩
    rfl rfl rfl (by decide)
    ⟨⟨"a", .scalar .int, Value.notSpecified, .int, []⟩, by exact .head _,
      rfl, rfl, by intro c hc; simp at hc, rfl⟩
  have hc : callFull "Basic" basicFields ["prog", "--b", "test"] [] [] =
      .exitMissing ["a"] := rfl
  exact hc

/-- Modelled from the spec: the reference lookup order for C1, written
from the spec's words — an explicit flag first; otherwise the first match
across the config files where a later-listed file takes precedence over an
earlier one; otherwise the environment variable named by upper-casing the
key; otherwise the caller default. -/
def specConfigLookup (fsys : List (String × List (String × String))) :
    List String → String → Option String
  | [], _ => Option.none
  | n :: rest, key =>
      match specConfigLookup fsys rest key with
      | some v => some v
      | Option.none =>
          match lookupStr fsys n with
          | some c => lookupStr c key
          | Option.none => Option.none

/-- Modelled from the spec: the full four-layer precedence for C1 (flags,
later-wins config files, upper-cased environment variable, default). -/
def layeredLookupSpec (kw : List (String × String))
    (fsys : List (String × List (String × String))) (names : List String)
    (env : List (String × String)) (key : String) (d : Value) : Value :=
  match lookupStr kw key with
  | some v => .str v
  | Option.none =>
      match specConfigLookup fsys names key with
      | some v => .str v
      | Option.none =>
          match lookupStr env (pyUpper key) with
          | some v => .str v
          | Option.none => d

theorem loadConfigsRev_append {fsys : List (String × List (String × String))}
    {l1 l2 : List String} {out : List (List (String × String))}
    (h : loadConfigsRev fsys (l1 ++ l2) = .ok out) :
    ∃ o1 o2, loadConfigsRev fsys l1 = .ok o1 ∧ loadConfigsRev fsys l2 = .ok o2 ∧
      out = o1 ++ o2 := by
  induction l1 generalizing out with
  | nil =>
      exact ⟨[], out, rfl, h, rfl⟩
  | cons n l1 ih =>
      rw [List.cons_append, loadConfigsRev] at h
      cases hn : lookupStr fsys n with
      | none =>
          rw [hn] at h
          cases h
      | some c =>
          rw [hn] at h
          cases hr : loadConfigsRev fsys (l1 ++ l2) with
          | error e =>
              rw [hr] at h
              cases h
          | ok cs =>
              rw [hr] at h
              obtain ⟨o1, o2, h1, h2, h3⟩ := ih hr
              cases h
              exact ⟨c :: o1, o2, by rw [loadConfigsRev, hn, h1]; rfl, h2, by rw [h3]; rfl⟩

theorem configGet_append (c1 c2 : List (List (String × String))) (key : String)
    (d : Value) :
    configGet (c1 ++ c2) key d = configGet c1 key (configGet c2 key d) := by
  induction c1 with
  | nil => rfl
  | cons c rest ih =>
      rw [List.cons_append, configGet, configGet]
      cases lookupStr c key with
      | none => exact ih
      | some v => rfl

theorem configGet_spec {fsys : List (String × List (String × String))}
    (names : List String) (cfgs : List (List (String × String))) (key : String)
    (x : Value) (h : loadConfigsRev fsys names.reverse = .ok cfgs) :
    configGet cfgs key x =
      (match specConfigLookup fsys names key with
        | some v => Value.str v
        | Option.none => x) := by
  induction names generalizing cfgs x with
  | nil =>
      cases h
      rfl
  | cons n rest ih =>
      rw [List.reverse_cons] at h
      obtain ⟨o1, o2, h1, h2, h3⟩ := loadConfigsRev_append h
      rw [loadConfigsRev] at h2
      cases hn : lookupStr fsys n with
      | none =>
          rw [hn] at h2
          cases h2
      | some c =>
          rw [hn] at h2
          rw [show loadConfigsRev fsys [] = Except.ok [] from rfl] at h2
          cases h2
          subst h3
          rw [configGet_append, ih o1 (configGet [c] key x) h1, specConfigLookup]
          cases specConfigLookup fsys rest key with
          | some v => rfl
          | none => rw [hn, configGet, configGet]

/-- C1: `InputSources.get` resolves every key by the fixed layered
precedence: an explicit flag value if present; otherwise the first match in
the config files with a later-listed file taking precedence over an earlier
one; otherwise the environment variable named by upper-casing the dotted
key; otherwise the caller-supplied default. -/
theorem get_layered_precedence (pos : List String) (kw : List (String × String))
    (hlp : Bool) (fsys : List (String × List (String × String)))
    (names : List String) (env : List (String × String)) (key : String)
    (d : Value) (cf : ConfigFiles)
    (hload : load_config_files fsys names = .ok cf) :
    InputSources.get ⟨⟨pos, kw, hlp⟩, cf, env⟩ key d =
      layeredLookupSpec kw fsys names env key d := by
  have hrev : loadConfigsRev fsys names.reverse = .ok cf.configs := by
    rw [load_config_files] at hload
    cases hr : loadConfigsRev fsys names.reverse with
    | error e =>
        rw [hr] at hload
        cases hload
    | ok cs =>
        rw [hr] at hload
        cases hload
        rfl
  have hunf : InputSources.get ⟨⟨pos, kw, hlp⟩, cf, env⟩ key d =
      (match lookupStr kw key with
        | some v => Value.str v
        | Option.none => configGet cf.configs key
            (match lookupStr env (pyUpper key) with
              | some v => Value.str v
              | Option.none => d)) := rfl
  rw [hunf, layeredLookupSpec]
  cases lookupStr kw key with
  | some v => rfl
  | none => rw [configGet_spec names cf.configs key _ hrev]

/-- Witness for C1 at concrete inputs: with files `A` then `B`, a key in
both resolves to `B`'s value; the flag layer and environment layer are
exercised by the other conjuncts. -/
theorem get_layered_precedence_witness :
    InputSources.get ⟨⟨["A", "B"], [], false⟩, ⟨[[("k", "vb")], [("k", "va"), ("x", "xa")]]⟩,
        [("E", "ev")]⟩ "k" Value.none = .str "vb" ∧
    InputSources.get ⟨⟨["A", "B"], [], false⟩, ⟨[[("k", "vb")], [("k", "va"), ("x", "xa")]]⟩,
        [("E", "ev")]⟩ "x" Value.none = .str "xa" ∧
    InputSources.get ⟨⟨["A", "B"], [], false⟩, ⟨[[("k", "vb")], [("k", "va"), ("x", "xa")]]⟩,
        [("E", "ev")]⟩ "e" Value.none = .str "ev" ∧
    InputSources.get ⟨⟨["A", "B"], [("k", "kw")], false⟩,
        ⟨[[("k", "vb")], [("k", "va"), ("x", "xa")]]⟩, [("E", "ev")]⟩ "k" Value.none =
      .str "kw" := by
  have hload : load_config_files
      [("A", [("k", "va"), ("x", "xa")]), ("B", [("k", "vb")])] ["A", "B"] =
      .ok ⟨[[("k", "vb")], [("k", "va"), ("x", "xa")]]⟩ := rfl
  refine ⟨?_, ?_, ?_, ?_⟩
  · rw [get_layered_precedence ["A", "B"] [] false
      [("A", [("k", "va"), ("x", "xa")]), ("B", [("k", "vb")])] ["A", "B"]
      [("E", "ev")] "k" Value.none _ hload]
    rfl
  · rw [get_layered_precedence ["A", "B"] [] false
      [("A", [("k", "va"), ("x", "xa")]), ("B", [("k", "vb")])] ["A", "B"]
      [("E", "ev")] "x" Value.none _ hload]
    rfl
  · rw [get_layered_precedence ["A", "B"] [] false
      [("A", [("k", "va"), ("x", "xa")]), ("B", [("k", "vb")])] ["A", "B"]
      [("E", "ev")] "e" Value.none _ hload]
    rfl
  · rw [get_layered_precedence ["A", "B"] [("k", "kw")] false
      [("A", [("k", "va"), ("x", "xa")]), ("B", [("k", "vb")])] ["A", "B"]
      [("E", "ev")] "k" Value.none _ hload]
    rfl

/-- The input sources built from a flag set alone: no positional config
files, no environment. -/
def srcFromFlags (F : List (String × String)) : InputSources :=
  ⟨⟨[], F, false⟩, ⟨[]⟩, []⟩

mutual
/-- Modelled from the spec: the value of one field under direct
construction — a scalar leaf is the leaf's converter applied to the flag
string at its dotted name, a nested record is constructed recursively. -/
def directValue (F : List (String × String)) (pfx : List String) :
    String → PyTy → Except PyErr Value
  | n, .scalar s =>
      match lookupStr F (String.intercalate "." (pfx ++ [n])) with
      | some sv => applyDefaultConv s (.str sv)
      | Option.none => .error (.keyError (String.intercalate "." (pfx ++ [n])))
  | n, .opt s =>
      match lookupStr F (String.intercalate "." (pfx ++ [n])) with
      | some sv => applyDefaultConv s (.str sv)
      | Option.none => .error (.keyError (String.intercalate "." (pfx ++ [n])))
  | n, .record ctor2 f2 => do
      let fs ← directFields F (pfx ++ [n]) f2
      .ok (.obj ctor2 fs)

/-- Modelled from the spec: directly construct each field in order. -/
def directFields (F : List (String × String)) (pfx : List String) :
    Fields → Except PyErr (List (String × Value))
  | .nil => .ok []
  | .cons n t _ rest => do
      let v ← directValue F pfx n t
      let fs ← directFields F pfx rest
      .ok ((n, v) :: fs)
end

/-- Modelled from the spec: constructing `C` directly with the interpreted
values of the flag set `F`. -/
def directConstruct (ctor : String) (fields : Fields)
    (F : List (String × String)) : Except PyErr Value := do
  let fs ← directFields F [] fields
  .ok (.obj ctor fs)

theorem get_value_srcFromFlags (F : List (String × String))
    (v : AnnotatedParameter) :
    (srcFromFlags F).get_value v =
      (match lookupStr F v.prefixed_name with
        | some s => Value.str s
        | Option.none => v.dflt) := rfl

theorem lookup_resolved {needed : List AnnotatedParameter}
    {F : List (String × String)} {v : AnnotatedParameter} (hv : v ∈ needed)
    {s : String} (hs : lookupStr F v.prefixed_name = some s) :
    lookupStr (resolve_inputs needed (srcFromFlags F)).1 v.prefixed_name =
      some (Value.str s) := by
  induction needed with
  | nil => cases hv
  | cons w rest ih =>
      simp only [resolve_inputs, lookupStr]
      by_cases hk : w.prefixed_name = v.prefixed_name
      · have hw : resolveOne (srcFromFlags F) w = (Value.str s, false) := by
          have hg : (srcFromFlags F).get_value w = Value.str s := by
            rw [get_value_srcFromFlags, hk, hs]
          simp [resolveOne, hg, Value.isNone, Value.isNotSpecified]
        rw [if_pos hk, hw]
      · rw [if_neg hk]
        cases List.mem_cons.mp hv with
        | inl h =>
            subst h
            exact absurd rfl hk
        | inr h => exact ih h

theorem resolve_no_missing {needed : List AnnotatedParameter}
    {F : List (String × String)}
    (hc : ∀ v ∈ needed, (lookupStr F v.prefixed_name).isSome) :
    (resolve_inputs needed (srcFromFlags F)).2 = [] := by
  induction needed with
  | nil => rfl
  | cons w rest ih =>
      obtain ⟨s, hs⟩ := Option.isSome_iff_exists.mp (hc w (by simp))
      have hg : (srcFromFlags F).get_value w = Value.str s := by
        rw [get_value_srcFromFlags, hs]
      have hw : (resolveOne (srcFromFlags F) w).2 = false := by
        simp [resolveOne, hg, Value.isNone, Value.isNotSpecified]
      simp only [resolve_inputs, hw]
      exact ih (fun v hv => hc v (by simp [hv]))

theorem annName_annotate (n : String) (t : PyTy) (d : Value)
    (pfx : List String) : annName (annotate_parameter n t d pfx) = n := by
  cases t <;> rfl

mutual
theorem collect_param_eq (F : List (String × String))
    (inputs : List (String × Value)) (n : String) (t : PyTy) (d : Value)
    (pfx : List String)
    (h : ∀ v ∈ all_needed_inputs (annotate_parameter n t d pfx),
      ∃ s, lookupStr F v.prefixed_name = some s ∧
        lookupStr inputs v.prefixed_name = some (Value.str s)) :
    collect inputs (annotate_parameter n t d pfx) = directValue F pfx n t := by
  cases t with
  | scalar s =>
      obtain ⟨sv, hF, hIn⟩ := h ⟨n, .scalar s, d, s, pfx⟩ (by
        simp [annotate_parameter, all_needed_inputs])
      have hpn : AnnotatedParameter.prefixed_name ⟨n, .scalar s, d, s, pfx⟩ =
          String.intercalate "." (pfx ++ [n]) := rfl
      rw [annotate_parameter, collect, hIn, directValue]
      rw [hpn] at hF
      rw [hF]
      rfl
  | opt s =>
      obtain ⟨sv, hF, hIn⟩ := h ⟨n, .opt s, d, s, pfx⟩ (by
        simp [annotate_parameter, all_needed_inputs])
      have hpn : AnnotatedParameter.prefixed_name ⟨n, .opt s, d, s, pfx⟩ =
          String.intercalate "." (pfx ++ [n]) := rfl
      rw [annotate_parameter, collect, hIn, directValue]
      rw [hpn] at hF
      rw [hF]
      rfl
  | record ctor2 f2 =>
      rw [annotate_parameter, collect, directValue,
        collect_fields_eq F inputs f2 (pfx ++ [n]) (by
          intro v hv
          exact h v (by
            simpa [annotate_parameter, all_needed_inputs] using hv))]

theorem collect_fields_eq (F : List (String × String))
    (inputs : List (String × Value)) (fields : Fields) (pfx : List String)
    (h : ∀ v ∈ allNeededList (annotate_fields fields pfx),
      ∃ s, lookupStr F v.prefixed_name = some s ∧
        lookupStr inputs v.prefixed_name = some (Value.str s)) :
    collectList inputs (annotate_fields fields pfx) = directFields F pfx fields := by
  cases fields with
  | nil => rfl
  | cons n t d rest =>
      rw [annotate_fields, collectList, directFields,
        collect_param_eq F inputs n t d pfx (by
          intro v hv
          exact h v (by
            simp only [annotate_fields, allNeededList, List.mem_append]
            exact Or.inl hv)),
        collect_fields_eq F inputs rest pfx (by
          intro v hv
          exact h v (by
            simp only [annotate_fields, allNeededList, List.mem_append]
            exact Or.inr hv)),
        annName_annotate]
end

/-- C2: for every composite record type and every complete flag set `F`
(one string per discovered dotted leaf name), discovering the leaves,
resolving them against the source built from `F`, and assembling the call
yields no missing names and produces exactly the object obtained by
constructing the type directly with the interpreted values of `F`. -/
theorem discover_resolve_assemble_round_trip (ctor : String) (fields : Fields)
    (F : List (String × String))
    (hc : ∀ v ∈ all_needed_inputs (annotate_callable ctor fields [] Option.none),
      (lookupStr F v.prefixed_name).isSome) :
    (resolve_inputs (all_needed_inputs (annotate_callable ctor fields [] Option.none))
      (srcFromFlags F)).2 = [] ∧
    collect (resolve_inputs (all_needed_inputs (annotate_callable ctor fields [] Option.none))
      (srcFromFlags F)).1 (annotate_callable ctor fields [] Option.none) =
      directConstruct ctor fields F := by
  refine ⟨resolve_no_missing hc, ?_⟩
  have h : ∀ v ∈ allNeededList (annotate_fields fields []),
      ∃ s, lookupStr F v.prefixed_name = some s ∧
        lookupStr (resolve_inputs
          (all_needed_inputs (annotate_callable ctor fields [] Option.none))
          (srcFromFlags F)).1 v.prefixed_name = some (Value.str s) := by
    intro v hv
    have hv2 : v ∈ all_needed_inputs (annotate_callable ctor fields [] Option.none) := hv
    obtain ⟨s, hs⟩ := Option.isSome_iff_exists.mp (hc v hv2)
    exact ⟨s, hs, lookup_resolved hv2 hs⟩
  generalize hR : (resolve_inputs
    (all_needed_inputs (annotate_callable ctor fields [] Option.none))
    (srcFromFlags F)).1 = R at h ⊢
  show (do
      let fs ← collectList R (annotate_fields fields [])
      Except.ok (Value.obj ctor fs)) = directConstruct ctor fields F
  rw [collect_fields_eq F R fields [] h]
  rfl

/-- A nested record `Bar{f: Foo{a: int, b: Optional[str] = None}, c: bool}`
used to witness the round-trip. -/
def nestedFields : Fields :=
  .cons "f" (.record "Foo" (.cons "a" (.scalar .int) Value.notSpecified
      (.cons "b" (.opt .str) Value.none .nil))) Value.notSpecified
    (.cons "c" (.scalar .bool) Value.notSpecified .nil)

/-- Witness for C2 at a concrete nested type and complete flag set. -/
theorem discover_resolve_assemble_round_trip_witness :
    (resolve_inputs (all_needed_inputs (annotate_callable "Bar" nestedFields [] Option.none))
      (srcFromFlags [("f.a", "7"), ("f.b", "x"), ("c", "t")])).2 = [] ∧
    collect (resolve_inputs (all_needed_inputs (annotate_callable "Bar" nestedFields [] Option.none))
      (srcFromFlags [("f.a", "7"), ("f.b", "x"), ("c", "t")])).1
      (annotate_callable "Bar" nestedFields [] Option.none) =
      directConstruct "Bar" nestedFields [("f.a", "7"), ("f.b", "x"), ("c", "t")] :=
  discover_resolve_assemble_round_trip "Bar" nestedFields
    [("f.a", "7"), ("f.b", "x"), ("c", "t")] (by decide)

end Clifun
